import Mathlib

/-!
# Verification of the darkgrade PTP host library

Shallow embedding of the core data-handling functions of the repository
(PTP value codecs, Sony property-record extraction, USB transport
behaviour, registry overlay, Canon camera connect sequence) together
with proofs of the specified properties.

Byte buffers (`Uint8Array`) are modelled as `List Nat`, each entry a
byte value `< 256` where the source produces it.  JavaScript numbers
holding 32-bit quantities are modelled as `Int` with the explicit
`% 2 ^ 32` coercions of the JS semantics spelled out.
-/

namespace Darkgrade

/-! ## PTP data type tags (`src/constants/types.ts`, `DataType`) -/

def DataType.UINT8 : Nat := 0x0001
def DataType.INT8 : Nat := 0x0002
def DataType.UINT16 : Nat := 0x0003
def DataType.INT16 : Nat := 0x0004
def DataType.UINT32 : Nat := 0x0005
def DataType.INT32 : Nat := 0x0006
def DataType.STRING : Nat := 0xffff

/-! ## Primitive numeric codecs (`src/core/buffers.ts`)

`encodePTPValue` writes the value into a `DataView` and returns the
written bytes; for the numeric cases the `DataView` setters store the
value's two's-complement bit pattern little-endian.  `encodePTPNumeric`
below is the numeric branches of that `switch`; the `STRING` branch is
`encodePTPString` further down; the `default` branch returns the empty
buffer. -/

/-- Little-endian bytes of a 16-bit pattern. -/
def u16leBytes (u : Nat) : List Nat := [u % 256, u / 256 % 256]

/-- Little-endian bytes of a 32-bit pattern. -/
def u32leBytes (u : Nat) : List Nat :=
  [u % 256, u / 256 % 256, u / 65536 % 256, u / 16777216 % 256]

/-- Numeric branches of `encodePTPValue` (`src/core/buffers.ts` lines 45-63).
`DataView.setUint8/setInt8` store `v mod 2^8`, `setUint16/setInt16`
(little-endian) store `v mod 2^16`, `setUint32/setInt32` store
`v mod 2^32`; the returned views are 1, 2 and 4 bytes long.  The
`default` branch of the `switch` returns an empty buffer. -/
def encodePTPNumeric (v : Int) (dataType : Nat) : List Nat :=
  if dataType = DataType.UINT8 then [(v % 256).toNat]
  else if dataType = DataType.INT8 then [(v % 256).toNat]
  else if dataType = DataType.UINT16 then u16leBytes (v % 65536).toNat
  else if dataType = DataType.INT16 then u16leBytes (v % 65536).toNat
  else if dataType = DataType.UINT32 then u32leBytes (v % 4294967296).toNat
  else if dataType = DataType.INT32 then u32leBytes (v % 4294967296).toNat
  else []

/-- Little-endian 16-bit read at the head of a byte list. -/
def readU16le (data : List Nat) : Nat := data.getD 0 0 + 256 * data.getD 1 0

/-- Little-endian 32-bit read at the head of a byte list. -/
def readU32le (data : List Nat) : Nat :=
  data.getD 0 0 + 256 * data.getD 1 0 + 65536 * data.getD 2 0 + 16777216 * data.getD 3 0

/-- Reinterpret an unsigned `w`-bit pattern as a signed value
(two's complement), as `DataView.getInt8/getInt16/getInt32` do. -/
def toSigned (x m : Nat) : Int := if 2 * x < m then (x : Int) else (x : Int) - m

/-- Numeric branches of `decodePTPValue` (`src/core/buffers.ts` lines 80-97).
An empty buffer returns `null` (modelled `none`); a buffer shorter than
the width makes the `DataView` getter throw a `RangeError`, also
modelled `none`. -/
def decodePTPNumeric (data : List Nat) (dataType : Nat) : Option Int :=
  if data.length = 0 then none
  else if dataType = DataType.UINT8 then some (data.getD 0 0)
  else if dataType = DataType.INT8 then some (toSigned (data.getD 0 0) 256)
  else if dataType = DataType.UINT16 then
    if 2 ≤ data.length then some (readU16le data) else none
  else if dataType = DataType.INT16 then
    if 2 ≤ data.length then some (toSigned (readU16le data) 65536) else none
  else if dataType = DataType.UINT32 then
    if 4 ≤ data.length then some (readU32le data) else none
  else if dataType = DataType.INT32 then
    if 4 ≤ data.length then some (toSigned (readU32le data) 4294967296) else none
  else none

/-- The fixed wire width of each primitive numeric PTP type, as returned
by the corresponding `encodePTPValue` branches. -/
def ptpNumericWidth (dataType : Nat) : Nat :=
  if dataType = DataType.UINT8 ∨ dataType = DataType.INT8 then 1
  else if dataType = DataType.UINT16 ∨ dataType = DataType.INT16 then 2
  else 4

/-- The inclusive-exclusive value range of each primitive numeric PTP type. -/
def ptpNumericRange (dataType : Nat) : Int × Int :=
  if dataType = DataType.UINT8 then (0, 256)
  else if dataType = DataType.INT8 then (-128, 128)
  else if dataType = DataType.UINT16 then (0, 65536)
  else if dataType = DataType.INT16 then (-32768, 32768)
  else if dataType = DataType.UINT32 then (0, 4294967296)
  else (-2147483648, 2147483648)

/-- Predicate: `v` lies in the value range of the numeric PTP type `dataType`. -/
def ptpNumericInRange (dataType : Nat) (v : Int) : Prop :=
  (ptpNumericRange dataType).1 ≤ v ∧ v < (ptpNumericRange dataType).2

instance (dataType : Nat) (v : Int) : Decidable (ptpNumericInRange dataType v) :=
  inferInstanceAs
    (Decidable ((ptpNumericRange dataType).1 ≤ v ∧ v < (ptpNumericRange dataType).2))

/-- The six primitive numeric PTP data types. -/
def ptpNumericTypes : List Nat :=
  [DataType.UINT8, DataType.INT8, DataType.UINT16,
   DataType.INT16, DataType.UINT32, DataType.INT32]

/-- C1 (codec round-trip). For every primitive numeric PTP data type
(`UINT8`, `INT8`, `UINT16`, `INT16`, `UINT32`, `INT32`) and every value
`v` in that type's range, `decodePTPValue` applied to
`encodePTPValue v dt` yields `v` back, and the encoding has the type's
fixed little-endian width (1, 2 or 4 bytes). -/
theorem encodePTPValue_decodePTPValue_roundTrip
    (dataType : Nat) (v : Int)
    (hdt : dataType ∈ ptpNumericTypes)
    (hv : ptpNumericInRange dataType v) :
    decodePTPNumeric (encodePTPNumeric v dataType) dataType = some v ∧
      (encodePTPNumeric v dataType).length = ptpNumericWidth dataType := by
  simp only [ptpNumericTypes, List.mem_cons, List.not_mem_nil, or_false] at hdt
  simp only [ptpNumericInRange, ptpNumericRange, DataType.UINT8, DataType.INT8,
    DataType.UINT16, DataType.INT16, DataType.UINT32, DataType.INT32] at hv ⊢
  rcases hdt with h | h | h | h | h | h <;> subst h <;>
    simp only [encodePTPNumeric, decodePTPNumeric, ptpNumericWidth, u16leBytes,
      u32leBytes, readU16le, readU32le, toSigned, DataType.UINT8, DataType.INT8,
      DataType.UINT16, DataType.INT16, DataType.UINT32, DataType.INT32] at hv ⊢ <;>
    norm_num at hv ⊢ <;> omega

/-- Witness for C1 at `dataType = UINT16`, `v = 513`. -/
theorem encodePTPValue_decodePTPValue_roundTrip_witness :
    (DataType.UINT16 ∈ ptpNumericTypes ∧ ptpNumericInRange DataType.UINT16 513) ∧
      (decodePTPNumeric (encodePTPNumeric 513 DataType.UINT16) DataType.UINT16 =
          some 513 ∧
        (encodePTPNumeric 513 DataType.UINT16).length =
          ptpNumericWidth DataType.UINT16) :=
  ⟨⟨by decide, by decide⟩,
    encodePTPValue_decodePTPValue_roundTrip DataType.UINT16 513 (by decide) (by decide)⟩

/-! ## PTP string codec (`src/core/buffers.ts`, `STRING` branches)

The `STRING` branch of `encodePTPValue` runs the value through
`TextEncoder` (WHATWG UTF-8) and prefixes the UTF-8 bytes with the byte
`utf8.length` (a `Uint8Array` store, hence taken mod 256) and a `0`
byte.  The `STRING` branch of `decodePTPValue` reads a little-endian
u16 length and UTF-8-decodes that many bytes starting at offset 2.

Strings are modelled as lists of Unicode scalar values.  `TextEncoder`
maps lone surrogates to U+FFFD before encoding, so every encoder input
is a scalar sequence; `utf8Decode` models `TextDecoder` on well-formed
input and returns `none` on a malformed sequence (where `TextDecoder`
with default options would substitute U+FFFD; the theorems only
exercise well-formed sequences). -/

/-- UTF-8 bytes of one Unicode scalar value (RFC 3629), the byte-level
behaviour of `TextEncoder.encode` per scalar. -/
def utf8EncodeChar (c : Nat) : List Nat :=
  if c < 128 then [c]
  else if c < 2048 then [192 + c / 64, 128 + c % 64]
  else if c < 65536 then [224 + c / 4096, 128 + c / 64 % 64, 128 + c % 64]
  else [240 + c / 262144, 128 + c / 4096 % 64, 128 + c / 64 % 64, 128 + c % 64]

/-- UTF-8 bytes of a scalar-value sequence (`TextEncoder.encode`). -/
def utf8Encode (s : List Nat) : List Nat := (s.map utf8EncodeChar).flatten

/-- Decode one UTF-8 scalar at the head of a byte stream: returns the
scalar and the remaining bytes, or `none` on a malformed prefix. -/
def utf8DecodeOne : List Nat → Option (Nat × List Nat)
  | [] => none
  | b :: rest =>
    if b < 128 then some (b, rest)
    else if b < 192 then none
    else if b < 224 then
      match rest with
      | b1 :: r =>
        if b1 / 64 = 2 then some ((b - 192) * 64 + (b1 - 128), r) else none
      | [] => none
    else if b < 240 then
      match rest with
      | b1 :: b2 :: r =>
        if b1 / 64 = 2 ∧ b2 / 64 = 2 then
          some ((b - 224) * 4096 + (b1 - 128) * 64 + (b2 - 128), r)
        else none
      | _ => none
    else
      match rest with
      | b1 :: b2 :: b3 :: r =>
        if b1 / 64 = 2 ∧ b2 / 64 = 2 ∧ b3 / 64 = 2 then
          some ((b - 240) * 262144 + (b1 - 128) * 4096 + (b2 - 128) * 64 + (b3 - 128), r)
        else none
      | _ => none

/-- Fuel-bounded UTF-8 decoding loop; each step consumes at least one
byte, so fuel equal to the byte count is always enough. -/
def utf8DecodeFuel : Nat → List Nat → Option (List Nat)
  | _, [] => some []
  | 0, _ :: _ => none
  | fuel + 1, b :: rest =>
    match utf8DecodeOne (b :: rest) with
    | none => none
    | some (c, r) => (utf8DecodeFuel fuel r).map (c :: ·)

/-- UTF-8 decoding of a byte sequence back to scalar values
(`TextDecoder.decode` on well-formed input; `none` on malformed input). -/
def utf8Decode (bytes : List Nat) : Option (List Nat) :=
  utf8DecodeFuel bytes.length bytes

/-- Decoding one scalar from an encoded scalar followed by anything
peels off exactly that scalar. -/
theorem utf8DecodeOne_encodeChar (c : Nat) (t : List Nat) (hc : c < 1114112) :
    utf8DecodeOne (utf8EncodeChar c ++ t) = some (c, t) := by
  unfold utf8EncodeChar
  split_ifs with h1 h2 h3
  · simp only [List.cons_append, List.nil_append, utf8DecodeOne, if_pos h1]
  · simp only [List.cons_append, List.nil_append, utf8DecodeOne]
    rw [if_neg (by omega), if_neg (by omega), if_pos (by omega), if_pos (by omega)]
    have hv : (192 + c / 64 - 192) * 64 + (128 + c % 64 - 128) = c := by omega
    rw [hv]
  · simp only [List.cons_append, List.nil_append, utf8DecodeOne]
    rw [if_neg (by omega), if_neg (by omega), if_neg (by omega), if_pos (by omega),
      if_pos (by constructor <;> omega)]
    have hv : (224 + c / 4096 - 224) * 4096 + (128 + c / 64 % 64 - 128) * 64 +
        (128 + c % 64 - 128) = c := by omega
    rw [hv]
  · simp only [List.cons_append, List.nil_append, utf8DecodeOne]
    rw [if_neg (by omega), if_neg (by omega), if_neg (by omega), if_neg (by omega),
      if_pos (by refine ⟨by omega, by omega, by omega⟩)]
    have hv : (240 + c / 262144 - 240) * 262144 + (128 + c / 4096 % 64 - 128) * 4096 +
        (128 + c / 64 % 64 - 128) * 64 + (128 + c % 64 - 128) = c := by omega
    rw [hv]

/-- An encoded scalar occupies at least one byte. -/
theorem utf8EncodeChar_length_pos (c : Nat) : 0 < (utf8EncodeChar c).length := by
  unfold utf8EncodeChar
  split_ifs <;> simp

/-- UTF-8 round trip on scalar-value sequences, with any sufficient fuel. -/
theorem utf8DecodeFuel_utf8Encode (s : List Nat) :
    ∀ fuel : Nat, (∀ c ∈ s, c < 1114112) → (utf8Encode s).length ≤ fuel →
      utf8DecodeFuel fuel (utf8Encode s) = some s := by
  induction s with
  | nil => intro fuel _ _; cases fuel <;> rfl
  | cons c s ih =>
    intro fuel hs hfuel
    have hc : c < 1114112 := hs c (by simp)
    have hrest : ∀ x ∈ s, x < 1114112 := fun x hx => hs x (by simp [hx])
    have henc : utf8Encode (c :: s) = utf8EncodeChar c ++ utf8Encode s := by
      simp [utf8Encode]
    rw [henc] at hfuel ⊢
    have hpos : 0 < (utf8EncodeChar c).length := utf8EncodeChar_length_pos c
    obtain ⟨f, rfl⟩ : ∃ f, fuel = f + 1 := by
      rcases fuel with _ | f
      · exfalso; rw [List.length_append] at hfuel; omega
      · exact ⟨f, rfl⟩
    obtain ⟨b, bs, hb⟩ :=
      List.exists_cons_of_ne_nil (l := utf8EncodeChar c ++ utf8Encode s)
        (by rw [← List.length_pos, List.length_append]; omega)
    rw [hb, utf8DecodeFuel, ← hb, utf8DecodeOne_encodeChar c _ hc]
    have hf : (utf8Encode s).length ≤ f := by
      rw [List.length_append] at hfuel; omega
    change (utf8DecodeFuel f (utf8Encode s)).map (c :: ·) = some (c :: s)
    rw [ih f hrest hf]
    rfl

/-- UTF-8 round trip on scalar-value sequences. -/
theorem utf8Decode_utf8Encode (s : List Nat) (hs : ∀ c ∈ s, c < 1114112) :
    utf8Decode (utf8Encode s) = some s :=
  utf8DecodeFuel_utf8Encode s (utf8Encode s).length hs le_rfl

/-- The `STRING` branch of `encodePTPValue` (`src/core/buffers.ts` lines 64-71):
`result[0] = utf8.length` (a `Uint8Array` element store coerces mod 256),
`result[1] = 0`, then the UTF-8 bytes at offset 2. -/
def encodePTPString (s : List Nat) : List Nat :=
  (utf8Encode s).length % 256 :: 0 :: utf8Encode s

/-- The `STRING` branch of `decodePTPValue` (`src/core/buffers.ts` lines 98-101):
an empty buffer returns `null` (`none`); otherwise read the little-endian
u16 `length` at offset 0 (a 1-byte buffer makes `getUint16` throw, also
`none`) and UTF-8-decode `data.slice(2, 2 + length)`. -/
def decodePTPString (data : List Nat) : Option (List Nat) :=
  if data.length = 0 then none
  else if data.length < 2 then none
  else utf8Decode ((data.drop 2).take (readU16le data))

/-- C2, counterexample. The claim says the empty string encodes as the
single byte `0x00`; the code produces the two bytes `00 00` (a length
byte and a constant `0` byte), so the encoding of `""` has length 2,
not 1.  And no UTF-16LE code units are involved: the string `"A"`
(scalar `[65]`) encodes as the three bytes `[1, 0, 65]` — a UTF-8 byte
count of 1 without any NUL terminator — not as the five bytes
`[2, 65, 0, 0, 0]` (u8 length 2 including NUL, then two UTF-16LE code
units) the claim requires. -/
theorem encodePTPString_empty_two_bytes :
    (encodePTPString [] = [0, 0] ∧ (encodePTPString []).length ≠ 1) ∧
      (encodePTPString [65] = [1, 0, 65] ∧
        encodePTPString [65] ≠ [2, 65, 0, 0, 0]) := by
  refine ⟨⟨?_, ?_⟩, ?_, ?_⟩ <;> decide

/-- C2, amended. Encoding a string writes one byte holding the UTF-8
byte count of the string (taken mod 256, no NUL terminator involved), a
constant `0` byte, then the UTF-8 bytes; the empty string encodes as the
two bytes `00 00`.  Decoding reads a little-endian u16 length from the
first two bytes and UTF-8-decodes that many following bytes; for every
string whose UTF-8 form is at most 255 bytes the round trip is exact. -/
theorem encodePTPString_spec (s : List Nat)
    (hs : ∀ c ∈ s, c < 1114112)
    (hlen : (utf8Encode s).length ≤ 255) :
    encodePTPString s = (utf8Encode s).length :: 0 :: utf8Encode s ∧
      (encodePTPString s).length = 2 + (utf8Encode s).length ∧
      decodePTPString (encodePTPString s) = some s := by
  have h1 : (utf8Encode s).length % 256 = (utf8Encode s).length :=
    Nat.mod_eq_of_lt (by omega)
  refine ⟨by rw [encodePTPString, h1],
    by simp only [encodePTPString, List.length_cons]; omega, ?_⟩
  rw [decodePTPString]
  rw [if_neg (by simp [encodePTPString]), if_neg (by simp [encodePTPString])]
  have h2 : readU16le (encodePTPString s) = (utf8Encode s).length := by
    simp [readU16le, encodePTPString, List.getD, h1]
  have h3 : (encodePTPString s).drop 2 = utf8Encode s := rfl
  rw [h2, h3, List.take_length]
  exact utf8Decode_utf8Encode s hs

/-- Witness for the amended C2 at `s = "A¢€😀"` (scalar values
`[65, 162, 8364, 128512]`, UTF-8 lengths 1+2+3+4). -/
theorem encodePTPString_spec_witness :
    ((∀ c ∈ [65, 162, 8364, 128512], c < 1114112) ∧
        (utf8Encode [65, 162, 8364, 128512]).length ≤ 255) ∧
      (encodePTPString [65, 162, 8364, 128512] =
          (utf8Encode [65, 162, 8364, 128512]).length :: 0 ::
            utf8Encode [65, 162, 8364, 128512] ∧
        (encodePTPString [65, 162, 8364, 128512]).length =
          2 + (utf8Encode [65, 162, 8364, 128512]).length ∧
        decodePTPString (encodePTPString [65, 162, 8364, 128512]) =
          some [65, 162, 8364, 128512]) :=
  ⟨⟨by decide, by decide⟩,
    encodePTPString_spec [65, 162, 8364, 128512] (by decide) (by decide)⟩

/-! ## Sony all-properties response extraction
(`src/core/buffers.ts`, `extractPropertyFromResponse`)

The source walks the buffer with a `while (offset < data.length - 4)`
loop, reading a little-endian u16 property code at `offset` and a
little-endian u16 size at `offset + 2`, returning
`data.slice(offset + 4, offset + 4 + size)` on a code match and
advancing `offset` by `4 + size` otherwise.  Reads at `offset` of
`data` are reads at offset 0 of `data.drop offset`, and
`Uint8Array.slice` clamps to the buffer end exactly as
`List.take`/`List.drop` do, so the loop is modelled by recursion on the
unread suffix. -/

def extractPropertyFromResponse (data : List Nat) (propertyCode : Nat) : List Nat :=
  if data.length ≤ 4 then []
  else
    let code := readU16le data
    let size := readU16le (data.drop 2)
    if code = propertyCode then (data.drop 4).take size
    else extractPropertyFromResponse (data.drop (4 + size)) propertyCode
termination_by data.length
decreasing_by simp only [List.length_drop]; omega

/-- One record of Sony's all-properties response format: a u16 property
code, a u16 byte count, then that many data bytes. -/
structure SonyPropRecord where
  code : Nat
  bytes : List Nat

/-- Wire form of one record. -/
def encodePropRecord (r : SonyPropRecord) : List Nat :=
  u16leBytes r.code ++ u16leBytes r.bytes.length ++ r.bytes

/-- Wire form of consecutive records. -/
def encodePropRecords (rs : List SonyPropRecord) : List Nat :=
  (rs.map encodePropRecord).flatten

theorem encodePropRecord_cons (r : SonyPropRecord) (t : List Nat) :
    encodePropRecord r ++ t =
      r.code % 256 :: r.code / 256 % 256 :: r.bytes.length % 256 ::
        r.bytes.length / 256 % 256 :: (r.bytes ++ t) := by
  simp [encodePropRecord, u16leBytes]

/-- A nonempty record list encodes to more than 4 bytes. -/
theorem encodePropRecords_length_pos (r : SonyPropRecord) (rs : List SonyPropRecord) :
    4 ≤ (encodePropRecords (r :: rs)).length := by
  show 4 ≤ ((encodePropRecord r :: rs.map encodePropRecord).flatten).length
  rw [List.flatten_cons, List.length_append, encodePropRecord]
  simp [u16leBytes]
  omega

/-- C10. For every buffer laid out as consecutive records of
(u16 LE property code, u16 LE size, `size` data bytes),
`extractPropertyFromResponse` returns the data bytes of the first
record whose code equals the requested property code, and the empty
buffer when no record matches. -/
theorem extractPropertyFromResponse_spec
    (rs : List SonyPropRecord) (pc : Nat)
    (hwf : ∀ r ∈ rs, r.code < 65536 ∧ r.bytes.length < 65536) :
    extractPropertyFromResponse (encodePropRecords rs) pc =
      ((rs.find? (fun r => r.code == pc)).map SonyPropRecord.bytes).getD [] := by
  induction rs with
  | nil => rw [extractPropertyFromResponse]; simp [encodePropRecords]
  | cons r rs ih =>
    obtain ⟨hcode, hsize⟩ := hwf r (by simp)
    have hrest : ∀ x ∈ rs, x.code < 65536 ∧ x.bytes.length < 65536 :=
      fun x hx => hwf x (by simp [hx])
    have henc : encodePropRecords (r :: rs) =
        r.code % 256 :: r.code / 256 % 256 :: r.bytes.length % 256 ::
          r.bytes.length / 256 % 256 :: (r.bytes ++ encodePropRecords rs) := by
      show (encodePropRecord r :: rs.map encodePropRecord).flatten = _
      rw [List.flatten_cons]
      exact encodePropRecord_cons r _
    have hread : readU16le (encodePropRecords (r :: rs)) = r.code := by
      rw [henc]; simp [readU16le, List.getD]; omega
    have hread2 : readU16le ((encodePropRecords (r :: rs)).drop 2) = r.bytes.length := by
      rw [henc]; simp [readU16le, List.getD]; omega
    have hdrop4 : (encodePropRecords (r :: rs)).drop 4 =
        r.bytes ++ encodePropRecords rs := by rw [henc]; rfl
    rw [extractPropertyFromResponse]
    by_cases hlen : (encodePropRecords (r :: rs)).length ≤ 4
    · -- the whole buffer is a single size-0 record: the loop body never
      -- runs, and every candidate result is the empty list
      have h4 : (encodePropRecords (r :: rs)).length = 4 + r.bytes.length +
          (encodePropRecords rs).length := by
        rw [henc]; simp [List.length_append]; omega
      have hb0 : r.bytes.length = 0 ∧ (encodePropRecords rs).length = 0 := by omega
      have hb : r.bytes = [] := List.length_eq_zero.mp hb0.1
      have hrs : rs = [] := by
        rcases rs with _ | ⟨x, xs⟩
        · rfl
        · exfalso
          have := encodePropRecords_length_pos x xs
          omega
      rw [if_pos hlen, hrs]
      by_cases hc : r.code == pc <;> simp [List.find?, hc, hb]
    · rw [if_neg hlen, hread, hread2]
      by_cases hc : r.code = pc
      · rw [if_pos hc, hdrop4, List.take_left,
          List.find?_cons_of_pos _ (by simp [hc])]
        rfl
      · rw [if_neg hc]
        have hdrop : (encodePropRecords (r :: rs)).drop (4 + r.bytes.length) =
            encodePropRecords rs := by
          rw [← List.drop_drop, hdrop4, List.drop_left]
        rw [hdrop, List.find?_cons_of_neg _ (by simp [hc])]
        exact ih hrest

/-- Witness for C10: three records, the second matches. -/
theorem extractPropertyFromResponse_spec_witness :
    (∀ r ∈ [SonyPropRecord.mk 0x5005 [7], SonyPropRecord.mk 0xd20b [1, 2, 3],
        SonyPropRecord.mk 0xd20b [9]],
        r.code < 65536 ∧ r.bytes.length < 65536) ∧
      extractPropertyFromResponse
        (encodePropRecords [SonyPropRecord.mk 0x5005 [7],
          SonyPropRecord.mk 0xd20b [1, 2, 3], SonyPropRecord.mk 0xd20b [9]])
        0xd20b =
      ((([SonyPropRecord.mk 0x5005 [7], SonyPropRecord.mk 0xd20b [1, 2, 3],
        SonyPropRecord.mk 0xd20b [9]].find?
          (fun r => r.code == 0xd20b)).map SonyPropRecord.bytes).getD []) :=
  ⟨by decide,
    extractPropertyFromResponse_spec
      [SonyPropRecord.mk 0x5005 [7], SonyPropRecord.mk 0xd20b [1, 2, 3],
        SonyPropRecord.mk 0xd20b [9]] 0xd20b (by decide)⟩

/-! ## Transaction-ID counter
(`src/transport/usb/usb-transport.ts`, `USBTransport.getNextTransactionId`)

The source executes
`this.transactionId = (this.transactionId + 1) & 0xffffffff` and returns
the stored value.  JavaScript `&` converts both operands with `ToInt32`
(wrap modulo `2^32` into `[-2^31, 2^31)`), ands the 32-bit patterns and
yields the signed 32-bit result, so the stored counter is always an
int32.  The container builder later serializes the id with
`DataView.setUint32`, which applies `ToUint32`; the wire value of a
counter `t` is therefore `toUint32 t`. -/

/-- JS `ToUint32`: the 32-bit pattern of a JS integer. -/
def toUint32 (n : Int) : Nat := (n % 4294967296).toNat

/-- JS `ToInt32`: wrap a JS integer modulo `2^32` into `[-2^31, 2^31)`. -/
def toInt32 (n : Int) : Int :=
  if toUint32 n < 2147483648 then (toUint32 n : Int)
  else (toUint32 n : Int) - 4294967296

/-- JavaScript `&` on integers: `ToInt32` both operands, and the 32-bit
patterns, return the signed 32-bit result. -/
def jsAnd (a b : Int) : Int := toInt32 ((toUint32 a) &&& (toUint32 b))

/-- The method `USBTransport.getNextTransactionId` as a function of the stored
counter: returns the new stored counter
(`(transactionId + 1) & 0xffffffff`). -/
def getNextTransactionId (transactionId : Int) : Int :=
  jsAnd (transactionId + 1) 0xffffffff

theorem toUint32_lt (n : Int) : toUint32 n < 4294967296 := by
  unfold toUint32; omega

theorem toUint32_toInt32 (n : Int) : toUint32 (toInt32 n) = toUint32 n := by
  unfold toInt32 toUint32
  split_ifs <;> omega

/-- C6, counterexample. The claim says that when the counter reads
`2^32 - 1` the next assigned transaction ID is 1.  The stored counter
whose unsigned 32-bit reading is `2^32 - 1` is the int32 `-1`, and the
code maps it to 0 — the reserved value the claim says is never
produced — not to 1. -/
theorem getNextTransactionId_wraps_to_zero :
    toUint32 (-1) = 4294967295 ∧
      toUint32 (getNextTransactionId (-1)) = 0 ∧
      toUint32 (getNextTransactionId (-1)) ≠ 1 := by
  refine ⟨by decide, ?_, ?_⟩ <;> decide

/-- C6, amended. For every int32-valued stored counter, the next
assigned transaction ID (read as u32, as `setUint32` serializes it) is
the previous value plus one modulo `2^32`: successive IDs increase
strictly by 1 until `2^32 - 1`, after which the counter wraps to 0
(the reserved value 0 is not skipped). -/
theorem getNextTransactionId_spec (tid : Int) (_h : toInt32 tid = tid) :
    toUint32 (getNextTransactionId tid) = (toUint32 tid + 1) % 4294967296 := by
  unfold getNextTransactionId jsAnd
  rw [toUint32_toInt32]
  have hmask : toUint32 (tid + 1) &&& toUint32 0xffffffff =
      toUint32 (tid + 1) % 4294967296 := by
    have := Nat.and_pow_two_sub_one_eq_mod (toUint32 (tid + 1)) 32
    norm_num at this ⊢
    exact this
  rw [hmask]
  unfold toUint32
  omega

/-- Witness for the amended C6 at the stored counter 41. -/
theorem getNextTransactionId_spec_witness :
    toInt32 41 = 41 ∧
      toUint32 (getNextTransactionId 41) = (toUint32 41 + 1) % 4294967296 :=
  ⟨by decide, getNextTransactionId_spec 41 (by decide)⟩

/-! ## Vendor registry overlay
(`src/constants/vendors/sony/operations.ts`, `SonyOperations`;
`src/constants/vendors/sony/events.ts`, `SonyEvents`)

Both tables are built with a JavaScript object spread
`{ ...GenericTable, ...vendorEntries }`: a property access on the
result yields the vendor entry when the vendor declares the key and the
generic entry otherwise.  Tables are modelled as association lists with
unique keys and the spread as `spreadLookup`. -/

/-- Shape of one operation table entry (code, parameter name/type
pairs, whether the operation has a data phase). -/
structure OperationDefinition where
  code : Nat
  parameters : List (String × Nat) := []
  hasDataPhase : Bool := false
deriving DecidableEq

/-- Shape of one event table entry (code and parameter name/type pairs). -/
structure EventDefinition where
  code : Nat
  parameters : List (String × Nat) := []
deriving DecidableEq

/-- Property access on a JS object built by `{ ...base, ...overrides }`:
the override entry if the key is declared there, the base entry
otherwise. -/
def spreadLookup {α : Type} (base overrides : List (String × α)) (name : String) :
    Option α :=
  match overrides.lookup name with
  | some v => some v
  | none => base.lookup name

/-- Modelled from the spec: the generic PTP operation table
(`@constants/ptp/operations`, whose source file is not under `src/`),
with the spec's "standard operation codes (minimum set)"; only the
codes are given by the spec, so parameter lists are left empty. -/
def ptpOperationEntries : List (String × OperationDefinition) :=
  [("GetDeviceInfo", { code := 0x1001 }),
   ("OpenSession", { code := 0x1002 }),
   ("CloseSession", { code := 0x1003 }),
   ("GetStorageIDs", { code := 0x1004 }),
   ("GetStorageInfo", { code := 0x1005 }),
   ("GetObjectHandles", { code := 0x1007 }),
   ("GetObjectInfo", { code := 0x1008 }),
   ("GetObject", { code := 0x1009 }),
   ("GetPartialObject", { code := 0x101B }),
   ("GetDevicePropDesc", { code := 0x1014 }),
   ("GetDevicePropValue", { code := 0x1015 }),
   ("SetDevicePropValue", { code := 0x1016 }),
   ("InitiateCapture", { code := 0x100E })]

/-- The Sony-specific operation entries of `SonyOperations`
(`src/constants/vendors/sony/operations.ts`). -/
def sonyOperationEntries : List (String × OperationDefinition) :=
  [("SDIO_CONNECT",
    { code := 0x9201,
      parameters := [("phase", DataType.UINT32), ("version", DataType.UINT32)],
      hasDataPhase := true }),
   ("SDIO_GET_EXT_DEVICE_INFO",
    { code := 0x9202, parameters := [("version", DataType.UINT32)],
      hasDataPhase := true }),
   ("SET_DEVICE_PROPERTY_VALUE",
    { code := 0x9205, parameters := [("propertyCode", DataType.UINT16)],
      hasDataPhase := true }),
   ("CONTROL_DEVICE_PROPERTY",
    { code := 0x9207, parameters := [("propertyCode", DataType.UINT16)],
      hasDataPhase := true }),
   ("GET_ALL_EXT_DEVICE_PROP_INFO",
    { code := 0x9209, parameters := [("version", DataType.UINT32)],
      hasDataPhase := true }),
   ("GET_ALL_DEVICE_PROP_DATA",
    { code := 0x920A, hasDataPhase := true }),
   ("GET_LIVE_VIEW_IMG",
    { code := 0x9219, hasDataPhase := true }),
   ("SDIO_GET_OSD_IMAGE",
    { code := 0x9238, parameters := [("handle", DataType.UINT32)],
      hasDataPhase := true })]

/-- Modelled from the spec: the generic PTP event table
(`@constants/ptp/events`, whose source file is not under `src/`); the
spec names the standard event `ObjectAdded 0x4003`. -/
def ptpEventEntries : List (String × EventDefinition) :=
  [("ObjectAdded", { code := 0x4003 })]

/-- The Sony-specific event entries of `SonyEvents`
(`src/unnamed/part_005`). -/
def sonyEventEntries : List (String × EventDefinition) :=
  [("PROPERTY_CHANGED",
    { code := 0xc201, parameters := [("propertyCode", DataType.UINT16)] }),
   ("OBJECT_ADDED_IN_SDRAM",
    { code := 0xc203, parameters := [("objectHandle", DataType.UINT32)] }),
   ("CAPTURE_STATUS_CHANGED",
    { code := 0xc204, parameters := [("status", DataType.UINT16)] }),
   ("FOCUS_STATUS_CHANGED",
    { code := 0xc205, parameters := [("focusStatus", DataType.UINT16)] }),
   ("LIVE_VIEW_STATUS_CHANGED",
    { code := 0xc206, parameters := [("liveViewStatus", DataType.UINT8)] }),
   ("CARD_STATUS_CHANGED",
    { code := 0xc207, parameters := [("cardStatus", DataType.UINT8)] })]

/-- Name lookup on `SonyOperations = { ...PTPOperations, ...sony entries }`. -/
def sonyOperationsLookup (name : String) : Option OperationDefinition :=
  spreadLookup ptpOperationEntries sonyOperationEntries name

/-- Name lookup on `SonyEvents = { ...PTPEvents, ...sony entries }`. -/
def sonyEventsLookup (name : String) : Option EventDefinition :=
  spreadLookup ptpEventEntries sonyEventEntries name

/-- C5. Any symbolic name the vendor table declares (in particular
any name declared in both the generic and the vendor table) resolves
through the vendor bundle to the vendor entry, and any name the vendor
table does not declare resolves to its generic entry unchanged — for the
Sony operation and event bundles. -/
theorem vendor_registry_overlay (name : String) :
    ((sonyOperationEntries.lookup name).isSome = true →
      sonyOperationsLookup name = sonyOperationEntries.lookup name) ∧
    (sonyOperationEntries.lookup name = none →
      sonyOperationsLookup name = ptpOperationEntries.lookup name) ∧
    ((sonyEventEntries.lookup name).isSome = true →
      sonyEventsLookup name = sonyEventEntries.lookup name) ∧
    (sonyEventEntries.lookup name = none →
      sonyEventsLookup name = ptpEventEntries.lookup name) := by
  refine ⟨?_, ?_, ?_, ?_⟩
  · intro h
    rcases ho : sonyOperationEntries.lookup name with _ | v
    · rw [ho] at h; simp at h
    · simp [sonyOperationsLookup, spreadLookup, ho]
  · intro h
    simp [sonyOperationsLookup, spreadLookup, h]
  · intro h
    rcases ho : sonyEventEntries.lookup name with _ | v
    · rw [ho] at h; simp at h
    · simp [sonyEventsLookup, spreadLookup, ho]
  · intro h
    simp [sonyEventsLookup, spreadLookup, h]

/-- Witness for C5: the vendor name `SDIO_CONNECT` resolves to the Sony
entry; the generic-only name `OpenSession` is still reachable through
the Sony bundle with its generic definition. -/
theorem vendor_registry_overlay_witness :
    (sonyOperationsLookup "SDIO_CONNECT" =
        sonyOperationEntries.lookup "SDIO_CONNECT" ∧
      sonyOperationsLookup "OpenSession" =
        ptpOperationEntries.lookup "OpenSession") ∧
    (sonyEventsLookup "PROPERTY_CHANGED" =
        sonyEventEntries.lookup "PROPERTY_CHANGED" ∧
      sonyEventsLookup "ObjectAdded" = ptpEventEntries.lookup "ObjectAdded") :=
  ⟨⟨(vendor_registry_overlay "SDIO_CONNECT").1 (by decide),
    (vendor_registry_overlay "OpenSession").2.1 (by decide)⟩,
   ⟨(vendor_registry_overlay "PROPERTY_CHANGED").2.2.1 (by decide),
    (vendor_registry_overlay "ObjectAdded").2.2.2 (by decide)⟩⟩

/-! ## STALL recovery and single-retry policy
(`src/unnamed/part_001`, `USBTransport.handleStallError` and
`USBTransport.bulkIn`)

`handleStallError` issues one `Get_Device_Status` class request, clears
halt on both bulk endpoints, then polls `Get_Device_Status` up to 10
times, sleeping 50 ms after each non-OK answer, and throws when no poll
returned `0x2001`.  `bulkIn` performs one transfer; on `stall` it runs
`handleStallError` and retries the transfer exactly once, throwing if
the retry is not `ok` (or carries no data).  The USB interactions are
modelled as a trace of actions; device-status answers to the successive
polls are supplied as a list (`getD i 0`, a device always answers). -/

/-- Status of one `transferIn`/`transferOut` (`result.status`);
`ok` here means `'ok'` with nonempty data, `other` any remaining
status such as `'babble'`. -/
inductive TransferStatus
  | ok
  | stall
  | other
deriving DecidableEq

/-- One observable USB interaction of the transport. -/
inductive USBAct
  | transferIn
  | getStatus
  | clearHaltIn (endpoint : Nat)
  | clearHaltOut (endpoint : Nat)
  | sleep (ms : Nat)
deriving DecidableEq

/-- Step 3 of `handleStallError`: up to `fuel` polls of
`Get_Device_Status`, each non-OK answer followed by a 50 ms sleep;
returns the actions and whether an OK (`0x2001`) answer arrived. -/
def pollStatusLoop (polls : List Nat) : Nat → List USBAct × Bool
  | 0 => ([], false)
  | fuel + 1 =>
    if polls.headD 0 = 0x2001 then ([USBAct.getStatus], true)
    else
      let r := pollStatusLoop polls.tail fuel
      (USBAct.getStatus :: USBAct.sleep 50 :: r.1, r.2)

/-- The method `USBTransport.handleStallError` for a bulk endpoint type: initial
`Get_Device_Status`, clear halt on both bulk endpoints, then the
10-poll loop; the Boolean is `false` when the final
`Device did not return OK after STALL recovery` error is thrown. -/
def handleStallError (epIn epOut : Nat) (polls : List Nat) : List USBAct × Bool :=
  let r := pollStatusLoop polls 10
  (USBAct.getStatus :: USBAct.clearHaltIn epIn :: USBAct.clearHaltOut epOut :: r.1,
    r.2)

/-- The method `USBTransport.bulkIn`: one transfer; on `stall`, stall recovery then
exactly one retried transfer whose status decides the outcome; a thrown
recovery error propagates before any retry.  Returns the action trace
and whether the call returns data rather than throwing. -/
def bulkInRun (epIn epOut : Nat) (r0 r1 : TransferStatus) (polls : List Nat) :
    List USBAct × Bool :=
  if r0 = TransferStatus.stall then
    if (handleStallError epIn epOut polls).2 then
      (USBAct.transferIn :: (handleStallError epIn epOut polls).1 ++
          [USBAct.transferIn],
        r1 = TransferStatus.ok)
    else
      (USBAct.transferIn :: (handleStallError epIn epOut polls).1, false)
  else ([USBAct.transferIn], r0 = TransferStatus.ok)

theorem pollStatusLoop_succ (polls : List Nat) (f : Nat) :
    pollStatusLoop polls (f + 1) =
      if polls.headD 0 = 0x2001 then ([USBAct.getStatus], true)
      else (USBAct.getStatus :: USBAct.sleep 50 :: (pollStatusLoop polls.tail f).1,
        (pollStatusLoop polls.tail f).2) := rfl

theorem getD_zero_eq_headD (l : List Nat) : l.getD 0 0 = l.headD 0 := by
  cases l <;> rfl

theorem getD_tail (l : List Nat) (i : Nat) : l.tail.getD i 0 = l.getD (i + 1) 0 := by
  cases l <;> simp [List.getD]

/-- The poll loop: success iff one of the first `fuel` answers is OK,
at most `fuel` status requests, and every action is a status request or
a 50 ms sleep. -/
theorem pollStatusLoop_spec (fuel : Nat) (polls : List Nat) :
    ((pollStatusLoop polls fuel).2 = true ↔
      ∃ i < fuel, polls.getD i 0 = 0x2001) ∧
    (pollStatusLoop polls fuel).1.count USBAct.getStatus ≤ fuel ∧
    (∀ a ∈ (pollStatusLoop polls fuel).1,
      a = USBAct.getStatus ∨ a = USBAct.sleep 50) := by
  induction fuel generalizing polls with
  | zero => simp [pollStatusLoop]
  | succ f ih =>
    by_cases hh : polls.headD 0 = 0x2001
    · have hred : pollStatusLoop polls (f + 1) = ([USBAct.getStatus], true) := by
        rw [pollStatusLoop_succ, if_pos hh]
      refine ⟨?_, ?_, ?_⟩
      · rw [hred]
        constructor
        · intro _
          exact ⟨0, by omega, by rw [getD_zero_eq_headD]; exact hh⟩
        · intro _; rfl
      · rw [hred]; simp
      · rw [hred]
        intro a ha
        simp only [List.mem_singleton] at ha
        exact Or.inl ha
    · have hred : pollStatusLoop polls (f + 1) =
          (USBAct.getStatus :: USBAct.sleep 50 :: (pollStatusLoop polls.tail f).1,
            (pollStatusLoop polls.tail f).2) := by
        rw [pollStatusLoop_succ, if_neg hh]
      obtain ⟨ih1, ih2, ih3⟩ := ih polls.tail
      refine ⟨?_, ?_, ?_⟩
      · rw [hred]
        show (pollStatusLoop polls.tail f).2 = true ↔ _
        rw [ih1]
        constructor
        · rintro ⟨i, hi, hv⟩
          exact ⟨i + 1, by omega, by rw [← getD_tail]; exact hv⟩
        · rintro ⟨i, hi, hv⟩
          cases i with
          | zero =>
            exact absurd (by rw [getD_zero_eq_headD] at hv; exact hv) hh
          | succ j =>
            exact ⟨j, by omega, by rw [getD_tail]; exact hv⟩
      · rw [hred]
        show (USBAct.getStatus :: USBAct.sleep 50 ::
          (pollStatusLoop polls.tail f).1).count USBAct.getStatus ≤ f + 1
        rw [List.count_cons_self, List.count_cons_of_ne (by simp)]
        omega
      · rw [hred]
        intro a ha
        simp only [List.mem_cons] at ha
        rcases ha with rfl | rfl | ha
        · exact Or.inl rfl
        · exact Or.inr rfl
        · exact ih3 a ha

theorem count_eq_zero_of_forall {a : USBAct} {l : List USBAct}
    (h : ∀ x ∈ l, x = USBAct.getStatus ∨ x = USBAct.sleep 50)
    (h1 : a ≠ USBAct.getStatus) (h2 : a ≠ USBAct.sleep 50) :
    l.count a = 0 := by
  rw [List.count_eq_zero]
  intro hmem
  rcases h a hmem with rfl | rfl
  · exact h1 rfl
  · exact h2 rfl

/-- C3. When a bulk transfer stalls, the transport performs exactly
one recovery-and-retry cycle: it issues `Get_Device_Status`, clears
halt on both bulk endpoints, polls `Get_Device_Status` at most 10 times
at 50 ms intervals until the status is `0x2001` (raising an error if
the device never returns OK, in which case the transfer is not
retried), then retries the failed transfer exactly once; a failure
after that single retry is an error with no further retry. -/
theorem bulkIn_stall_single_retry (epIn epOut : Nat) (r0 r1 : TransferStatus)
    (polls : List Nat) (h0 : r0 = TransferStatus.stall) :
    (bulkInRun epIn epOut r0 r1 polls).1.take 4 =
      [USBAct.transferIn, USBAct.getStatus, USBAct.clearHaltIn epIn,
        USBAct.clearHaltOut epOut] ∧
    (bulkInRun epIn epOut r0 r1 polls).1.count USBAct.getStatus ≤ 11 ∧
    (∀ ms, USBAct.sleep ms ∈ (bulkInRun epIn epOut r0 r1 polls).1 → ms = 50) ∧
    ((handleStallError epIn epOut polls).2 = true ↔
      ∃ i < 10, polls.getD i 0 = 0x2001) ∧
    ((handleStallError epIn epOut polls).2 = true →
      (bulkInRun epIn epOut r0 r1 polls).1.count USBAct.transferIn = 2 ∧
        ((bulkInRun epIn epOut r0 r1 polls).2 = true ↔ r1 = TransferStatus.ok)) ∧
    ((handleStallError epIn epOut polls).2 = false →
      (bulkInRun epIn epOut r0 r1 polls).1.count USBAct.transferIn = 1 ∧
        (bulkInRun epIn epOut r0 r1 polls).2 = false) := by
  subst h0
  obtain ⟨hp1, hp2, hp3⟩ := pollStatusLoop_spec 10 polls
  have hcnt0 : (pollStatusLoop polls 10).1.count USBAct.transferIn = 0 :=
    count_eq_zero_of_forall hp3 (by simp) (by simp)
  have hst1 : (handleStallError epIn epOut polls).1 =
      USBAct.getStatus :: USBAct.clearHaltIn epIn :: USBAct.clearHaltOut epOut ::
        (pollStatusLoop polls 10).1 := rfl
  have hst2 : (handleStallError epIn epOut polls).2 = (pollStatusLoop polls 10).2 :=
    rfl
  by_cases hok : (handleStallError epIn epOut polls).2 = true
  · have hbr : bulkInRun epIn epOut TransferStatus.stall r1 polls =
        (USBAct.transferIn ::
          ((handleStallError epIn epOut polls).1 ++ [USBAct.transferIn]),
          decide (r1 = TransferStatus.ok)) := by
      unfold bulkInRun
      rw [if_pos rfl, hok, if_pos rfl, List.cons_append]
    have hokp : (pollStatusLoop polls 10).1.count USBAct.getStatus ≤ 10 := hp2
    refine ⟨?_, ?_, ?_, ?_, ?_, ?_⟩
    · rw [hbr, hst1]
      rfl
    · rw [hbr, hst1]
      simp only [List.cons_append]
      rw [List.count_cons_of_ne (by simp), List.count_cons_self,
        List.count_cons_of_ne (by simp), List.count_cons_of_ne (by simp),
        List.count_append]
      have h1 : ([USBAct.transferIn] : List USBAct).count USBAct.getStatus = 0 := rfl
      omega
    · intro ms hms
      rw [hbr, hst1] at hms
      simp only [List.cons_append, List.mem_cons, List.mem_append,
        List.mem_singleton] at hms
      rcases hms with h | h | h | h | h | h
      · simp at h
      · simp at h
      · simp at h
      · simp at h
      · rcases hp3 _ h with h' | h'
        · simp at h'
        · injection h'
      · simp at h
    · rw [hst2] at hok ⊢
      exact hp1
    · intro _
      constructor
      · rw [hbr, hst1]
        simp only [List.cons_append]
        rw [List.count_cons_self, List.count_cons_of_ne (by simp),
          List.count_cons_of_ne (by simp), List.count_cons_of_ne (by simp),
          List.count_append]
        have h1 : ([USBAct.transferIn] : List USBAct).count USBAct.transferIn = 1 :=
          rfl
        omega
      · rw [hbr]
        simp
    · intro hfail
      rw [hok] at hfail
      exact absurd hfail (by decide)
  · have hok' : (handleStallError epIn epOut polls).2 = false := by
      revert hok; cases (handleStallError epIn epOut polls).2 <;> simp
    have hbr : bulkInRun epIn epOut TransferStatus.stall r1 polls =
        (USBAct.transferIn :: (handleStallError epIn epOut polls).1, false) := by
      unfold bulkInRun
      rw [if_pos rfl, hok', if_neg (by simp)]
    refine ⟨?_, ?_, ?_, ?_, ?_, ?_⟩
    · rw [hbr, hst1]
      rfl
    · rw [hbr, hst1]
      rw [List.count_cons_of_ne (by simp), List.count_cons_self,
        List.count_cons_of_ne (by simp), List.count_cons_of_ne (by simp)]
      omega
    · intro ms hms
      rw [hbr, hst1] at hms
      simp only [List.mem_cons] at hms
      rcases hms with h | h | h | h | h
      · simp at h
      · simp at h
      · simp at h
      · simp at h
      · rcases hp3 _ h with h' | h'
        · simp at h'
        · injection h'
    · rw [hst2] at hok' ⊢
      rw [hok']
      simp only [Bool.false_eq_true, false_iff]
      rw [hst2] at hok
      intro hex
      exact hok (hp1.mpr hex)
    · intro hsucc
      rw [hok'] at hsucc
      exact absurd hsucc (by decide)
    · intro _
      constructor
      · rw [hbr, hst1]
        rw [List.count_cons_self, List.count_cons_of_ne (by simp),
          List.count_cons_of_ne (by simp), List.count_cons_of_ne (by simp),
          hcnt0]
      · rw [hbr]

/-- Witness for C3: bulk-in stall with an immediately-OK device status
and a successful retry. -/
theorem bulkIn_stall_single_retry_witness :
    (TransferStatus.stall = TransferStatus.stall) ∧
      ((bulkInRun 1 2 TransferStatus.stall TransferStatus.ok [0x2001]).1.take 4 =
        [USBAct.transferIn, USBAct.getStatus, USBAct.clearHaltIn 1,
          USBAct.clearHaltOut 2] ∧
      (bulkInRun 1 2 TransferStatus.stall TransferStatus.ok
        [0x2001]).1.count USBAct.getStatus ≤ 11 ∧
      (∀ ms, USBAct.sleep ms ∈
        (bulkInRun 1 2 TransferStatus.stall TransferStatus.ok [0x2001]).1 →
        ms = 50) ∧
      ((handleStallError 1 2 [0x2001]).2 = true ↔
        ∃ i < 10, [(0x2001 : Nat)].getD i 0 = 0x2001) ∧
      ((handleStallError 1 2 [0x2001]).2 = true →
        (bulkInRun 1 2 TransferStatus.stall TransferStatus.ok
            [0x2001]).1.count USBAct.transferIn = 2 ∧
          ((bulkInRun 1 2 TransferStatus.stall TransferStatus.ok [0x2001]).2 =
              true ↔ TransferStatus.ok = TransferStatus.ok)) ∧
      ((handleStallError 1 2 [0x2001]).2 = false →
        (bulkInRun 1 2 TransferStatus.stall TransferStatus.ok
            [0x2001]).1.count USBAct.transferIn = 1 ∧
          (bulkInRun 1 2 TransferStatus.stall TransferStatus.ok [0x2001]).2 =
            false)) :=
  ⟨rfl, bulkIn_stall_single_retry 1 2 TransferStatus.stall TransferStatus.ok
    [0x2001] rfl⟩

/-! ## Chunked inbound data phase
(`src/transport/usb/usb-transport.ts`, `USBTransport.bulkIn`)

The source reads a first chunk (requesting 64 KiB), rejects it when it
is shorter than 12 bytes, reads the container length from its first
four bytes (little-endian u32), and returns
`firstChunk.slice(0, containerLength)` when the first chunk already
holds the whole container.  Otherwise it loops: request
`min(containerLength - totalReceived, 64 KiB)` bytes, stop on an empty
chunk (short-packet terminator), accumulate until
`totalReceived ≥ containerLength`, concatenate, and return
`completeData.slice(0, min(containerLength, completeData.length))`.

The chunks successive `transferIn` calls deliver are supplied as a
list; a real device always answers, so the loop is modelled up to the
supplied reads. -/

/-- Result of the read-remaining-data loop: the chunks appended to the
first one, the sizes requested from `transferIn`, and the final
`totalReceived`. -/
structure BulkInLoopOut where
  chunks : List (List Nat)
  requests : List Nat
  total : Nat
deriving DecidableEq

/-- The `while (totalReceived < containerLength)` loop of `bulkIn`. -/
def bulkInLoop (supply : List (List Nat)) (total target : Nat) : BulkInLoopOut :=
  if total < target then
    match supply with
    | [] => ⟨[], [], total⟩
    | c :: cs =>
      let req := min (target - total) 65536
      if c.length = 0 then ⟨[], [req], total⟩
      else
        let r := bulkInLoop cs (total + c.length) target
        ⟨c :: r.chunks, req :: r.requests, r.total⟩
  else ⟨[], [], total⟩

/-- The method `USBTransport.bulkIn` for a given first chunk and subsequent chunk
supply: the bytes it returns, or an error for a short first chunk. -/
def bulkInModel (first : List Nat) (supply : List (List Nat)) :
    Except String (List Nat) :=
  if first.length < 12 then Except.error "Container too short"
  else
    if readU32le first ≤ first.length then Except.ok (first.take (readU32le first))
    else
      let r := bulkInLoop supply first.length (readU32le first)
      let complete := (first :: r.chunks).flatten
      Except.ok (complete.take (min (readU32le first) complete.length))

theorem bulkInLoop_total (supply : List (List Nat)) (total target : Nat) :
    (bulkInLoop supply total target).total =
      total + ((bulkInLoop supply total target).chunks.map List.length).sum := by
  induction supply generalizing total with
  | nil =>
    rw [bulkInLoop]
    split_ifs <;> simp
  | cons c cs ih =>
    rw [bulkInLoop]
    split_ifs with h1 h2
    · simp
    · simp only
      rw [List.map_cons, List.sum_cons, ih (total + c.length)]
      omega
    · simp

theorem bulkInLoop_reaches (supply : List (List Nat)) (total target : Nat)
    (hne : ∀ c ∈ supply, c ≠ [])
    (hsum : target ≤ total + (supply.map List.length).sum) :
    target ≤ (bulkInLoop supply total target).total := by
  induction supply generalizing total with
  | nil =>
    rw [bulkInLoop]
    simp at hsum
    rw [if_neg (by omega)]
    exact hsum
  | cons c cs ih =>
    rw [bulkInLoop]
    split_ifs with h1 h2
    · exfalso
      exact hne c (by simp) (List.length_eq_zero.mp h2)
    · simp only
      exact ih (total + c.length) (fun x hx => hne x (by simp [hx]))
        (by simp at hsum; omega)
    · exact Nat.le_of_not_lt h1

theorem bulkInLoop_requests (supply : List (List Nat)) (total target : Nat) :
    ∀ r ∈ (bulkInLoop supply total target).requests, r ≤ 65536 := by
  induction supply generalizing total with
  | nil =>
    rw [bulkInLoop]
    split_ifs <;> simp
  | cons c cs ih =>
    rw [bulkInLoop]
    split_ifs with h1 h2
    · intro r hr
      simp only [List.mem_singleton] at hr
      subst hr
      exact min_le_right _ _
    · intro r hr
      simp only [List.mem_cons] at hr
      rcases hr with rfl | hr
      · exact min_le_right _ _
      · exact ih (total + c.length) r hr
    · simp

/-- C4. For an inbound data phase whose first chunk is a valid
header (≥ 12 bytes) but shorter than the container's u32 length field:
every follow-up read requests at most 64 KiB; when the supplied chunks
are all nonempty and carry enough bytes, the loop keeps reading until
the total reaches the container length and the caller receives exactly
`containerLength` bytes — the received prefix truncated to the length
field, trailing padding discarded; and when the first follow-up read
returns no bytes (short-packet terminator), reading stops and the first
chunk is returned as-is. -/
theorem bulkIn_chunking_spec (first : List Nat) (supply : List (List Nat))
    (h12 : 12 ≤ first.length) (hlt : first.length < readU32le first) :
    (∀ r ∈ (bulkInLoop supply first.length (readU32le first)).requests,
      r ≤ 65536) ∧
    bulkInModel first supply =
      Except.ok (((first ::
        (bulkInLoop supply first.length (readU32le first)).chunks).flatten).take
          (readU32le first)) ∧
    ((∀ c ∈ supply, c ≠ []) →
      readU32le first ≤ first.length + (supply.map List.length).sum →
      ∃ data, bulkInModel first supply = Except.ok data ∧
        data.length = readU32le first) ∧
    (∀ cs, supply = [] :: cs → bulkInModel first supply = Except.ok first) := by
  have hflat : ∀ supply' : List (List Nat),
      ((first :: (bulkInLoop supply' first.length (readU32le first)).chunks).flatten).length =
        (bulkInLoop supply' first.length (readU32le first)).total := by
    intro supply'
    rw [List.flatten_cons, List.length_append, List.length_flatten,
      bulkInLoop_total supply' first.length (readU32le first)]
  have hmodel : bulkInModel first supply =
      Except.ok ((((first ::
        (bulkInLoop supply first.length (readU32le first)).chunks).flatten)).take
          (min (readU32le first)
            ((first ::
              (bulkInLoop supply first.length (readU32le first)).chunks).flatten).length)) := by
    rw [bulkInModel, if_neg (by omega), if_neg (by omega)]
  refine ⟨bulkInLoop_requests supply first.length (readU32le first), ?_, ?_, ?_⟩
  · rw [hmodel]
    congr 1
    rcases le_total (readU32le first)
      ((first :: (bulkInLoop supply first.length (readU32le first)).chunks).flatten).length
      with h | h
    · rw [min_eq_left h]
    · rw [min_eq_right h, List.take_length, List.take_of_length_le h]
  · intro hne hsum
    have hreach := bulkInLoop_reaches supply first.length (readU32le first) hne hsum
    refine ⟨_, hmodel, ?_⟩
    rw [List.length_take, hflat supply]
    omega
  · intro cs hcs
    subst hcs
    have hloop : bulkInLoop ([] :: cs) first.length (readU32le first) =
        ⟨[], [min (readU32le first - first.length) 65536], first.length⟩ := by
      rw [bulkInLoop, if_pos (by omega)]
      simp
    rw [hmodel, hloop]
    simp only [List.flatten_cons, List.flatten_nil, List.append_nil]
    rw [min_eq_right (by omega), List.take_length]

/-- Witness for C4: a container of declared length 20 whose first chunk
is the 12-byte header, completed by one 9-byte chunk (one byte of
padding past the length field). -/
theorem bulkIn_chunking_spec_witness :
    (12 ≤ ([20, 0, 0, 0, 2, 0, 1, 16, 1, 0, 0, 0] : List Nat).length ∧
      ([20, 0, 0, 0, 2, 0, 1, 16, 1, 0, 0, 0] : List Nat).length <
        readU32le [20, 0, 0, 0, 2, 0, 1, 16, 1, 0, 0, 0]) ∧
    ((∀ r ∈ (bulkInLoop [[9, 9, 9, 9, 9, 9, 9, 9, 9]]
        ([20, 0, 0, 0, 2, 0, 1, 16, 1, 0, 0, 0] : List Nat).length
        (readU32le [20, 0, 0, 0, 2, 0, 1, 16, 1, 0, 0, 0])).requests,
      r ≤ 65536) ∧
    bulkInModel [20, 0, 0, 0, 2, 0, 1, 16, 1, 0, 0, 0] [[9, 9, 9, 9, 9, 9, 9, 9, 9]] =
      Except.ok ((([20, 0, 0, 0, 2, 0, 1, 16, 1, 0, 0, 0] ::
        (bulkInLoop [[9, 9, 9, 9, 9, 9, 9, 9, 9]]
          ([20, 0, 0, 0, 2, 0, 1, 16, 1, 0, 0, 0] : List Nat).length
          (readU32le [20, 0, 0, 0, 2, 0, 1, 16, 1, 0, 0, 0])).chunks).flatten).take
            (readU32le [20, 0, 0, 0, 2, 0, 1, 16, 1, 0, 0, 0])) ∧
    ((∀ c ∈ [[9, 9, 9, 9, 9, 9, 9, 9, 9]], c ≠ ([] : List Nat)) →
      readU32le [20, 0, 0, 0, 2, 0, 1, 16, 1, 0, 0, 0] ≤
        ([20, 0, 0, 0, 2, 0, 1, 16, 1, 0, 0, 0] : List Nat).length +
          (([[9, 9, 9, 9, 9, 9, 9, 9, 9]] : List (List Nat)).map List.length).sum →
      ∃ data, bulkInModel [20, 0, 0, 0, 2, 0, 1, 16, 1, 0, 0, 0]
          [[9, 9, 9, 9, 9, 9, 9, 9, 9]] = Except.ok data ∧
        data.length = readU32le [20, 0, 0, 0, 2, 0, 1, 16, 1, 0, 0, 0]) ∧
    (∀ cs, ([[9, 9, 9, 9, 9, 9, 9, 9, 9]] : List (List Nat)) = [] :: cs →
      bulkInModel [20, 0, 0, 0, 2, 0, 1, 16, 1, 0, 0, 0]
        [[9, 9, 9, 9, 9, 9, 9, 9, 9]] = Except.ok [20, 0, 0, 0, 2, 0, 1, 16, 1, 0, 0, 0])) :=
  ⟨⟨by decide, by decide⟩,
    bulkIn_chunking_spec [20, 0, 0, 0, 2, 0, 1, 16, 1, 0, 0, 0]
      [[9, 9, 9, 9, 9, 9, 9, 9, 9]] (by decide) (by decide)⟩

/-! ## Interrupt events and the event pump
(`src/transport/usb/usb-transport.ts`,
`USBTransport.handleInterruptData` / `USBTransport.pollInterruptEndpoint`;
the identical parameter loop also appears in `src/unnamed/part_001`)

`handleInterruptData` parses the interrupt bytes with
`USBContainerBuilder.parseEvent`, collects up to five little-endian u32
parameters from the payload, emits one structured log record via
`logger.addLog`, and invokes every registered handler with the event;
any parse error is caught and ignored — the `catch` block is empty, so
nothing is logged and no handler runs.  `pollInterruptEndpoint`
re-schedules itself afterwards iff `interruptListening` is still set,
independently of the parse outcome. -/

/-- A parsed EVENT container. -/
structure EventContainer where
  length : Nat
  code : Nat
  transactionId : Nat
  payload : List Nat
deriving DecidableEq

/-- Modelled from the spec: `USBContainerBuilder.parseEvent`
(`./usb-container`, whose source file is not under `src/`).  Per the
container-framing section a container is the 12-byte header
`length u32 | container_type u16 | code u16 | transaction_id u32`
followed by the payload; the framer validates `length ≥ 12`, that the
length fits the delivered frame, and ignores trailing bytes after
`length`. -/
def parseEvent (data : List Nat) : Except String EventContainer :=
  if data.length < 12 then Except.error "Container too short"
  else if readU32le data < 12 then Except.error "Invalid container length"
  else if data.length < readU32le data then
    Except.error "Container length exceeds data"
  else
    Except.ok
      { length := readU32le data,
        code := readU16le (data.drop 6),
        transactionId := readU32le (data.drop 8),
        payload := (data.drop 12).take (readU32le data - 12) }

/-- The parameter loop of `handleInterruptData`
(`while (offset + 4 <= payload.length && parameters.length < 5)`):
`fuel` is `5 - parameters.length`, each step reads a little-endian u32
at `offset` and advances by 4. -/
def eventParamsLoop (payload : List Nat) (offset : Nat) : Nat → List Nat
  | 0 => []
  | fuel + 1 =>
    if offset + 4 ≤ payload.length then
      readU32le (payload.drop offset) :: eventParamsLoop payload (offset + 4) fuel
    else []

/-- The parameters `handleInterruptData` collects from an event payload. -/
def extractEventParams (payload : List Nat) : List Nat :=
  eventParamsLoop payload 0 5

/-- The event value delivered to handlers. -/
structure PTPEvent where
  code : Nat
  transactionId : Nat
  parameters : List Nat
deriving DecidableEq

/-- The fields of the structured `usb_transfer` log record
`handleInterruptData` emits that depend on the container. -/
structure LogRecord where
  endpoint : String
  bytes : Nat
  transactionId : Nat
deriving DecidableEq

/-- The method `USBTransport.handleInterruptData`: the structured log records it
emits and the events it delivers to each registered handler.  On a
parse error the `catch` block swallows the exception: nothing is
logged, no handler is invoked. -/
def handleInterruptData (data : List Nat) : List LogRecord × List PTPEvent :=
  match parseEvent data with
  | Except.error _ => ([], [])
  | Except.ok ec =>
    ([{ endpoint := "interrupt", bytes := data.length,
        transactionId := ec.transactionId }],
     [{ code := ec.code, transactionId := ec.transactionId,
        parameters := extractEventParams ec.payload }])

/-- One round of `pollInterruptEndpoint` after a read delivered `data`:
the handling outcome, and whether the pump schedules the next poll
(it does exactly when `interruptListening` is still set). -/
def pollStep (interruptListening : Bool) (data : List Nat) :
    (List LogRecord × List PTPEvent) × Bool :=
  (handleInterruptData data, interruptListening)

theorem eventParamsLoop_spec (payload : List Nat) :
    ∀ (fuel offset : Nat),
      (eventParamsLoop payload offset fuel).length =
        min ((payload.length - offset) / 4) fuel ∧
      (∀ i < (eventParamsLoop payload offset fuel).length,
        (eventParamsLoop payload offset fuel).getD i 0 =
          readU32le (payload.drop (offset + 4 * i))) := by
  intro fuel
  induction fuel with
  | zero => intro offset; simp [eventParamsLoop]
  | succ f ih =>
    intro offset
    by_cases h4 : offset + 4 ≤ payload.length
    · have hred : eventParamsLoop payload offset (f + 1) =
          readU32le (payload.drop offset) ::
            eventParamsLoop payload (offset + 4) f := by
        rw [eventParamsLoop, if_pos h4]
      obtain ⟨ih1, ih2⟩ := ih (offset + 4)
      constructor
      · rw [hred, List.length_cons, ih1]
        omega
      · intro i hi
        rw [hred] at hi ⊢
        cases i with
        | zero => simp
        | succ j =>
          simp only [List.length_cons] at hi
          have := ih2 j (by omega)
          simp only [List.getD_cons_succ]
          rw [this]
          congr 2
          omega
    · have hred : eventParamsLoop payload offset (f + 1) = [] := by
        rw [eventParamsLoop, if_neg h4]
      constructor
      · rw [hred]
        simp
        omega
      · intro i hi
        rw [hred] at hi
        simp at hi

/-- C7. For every successfully parsed EVENT container, the event
delivered to handlers is delivered exactly once and carries exactly
`min(payload words, 5)` parameters, equal to the first little-endian
u32 words of the payload in order; words beyond the fifth are ignored. -/
theorem handleInterruptData_params (data : List Nat) (ec : EventContainer)
    (h : parseEvent data = Except.ok ec) :
    ∃ ev, (handleInterruptData data).2 = [ev] ∧
      ev.code = ec.code ∧
      ev.transactionId = ec.transactionId ∧
      ev.parameters.length = min (ec.payload.length / 4) 5 ∧
      (∀ i < ev.parameters.length,
        ev.parameters.getD i 0 = readU32le (ec.payload.drop (4 * i))) := by
  refine ⟨PTPEvent.mk ec.code ec.transactionId (extractEventParams ec.payload),
    ?_, rfl, rfl, ?_, ?_⟩
  · unfold handleInterruptData
    rw [h]
  · obtain ⟨h1, _⟩ := eventParamsLoop_spec ec.payload 5 0
    simpa [extractEventParams] using h1
  · obtain ⟨_, h2⟩ := eventParamsLoop_spec ec.payload 5 0
    intro i hi
    simpa [extractEventParams] using h2 i hi

/-- Witness for C7: the spec's event-delivery scenario, a 20-byte
EVENT container (code 0x4003, transaction 5) whose payload holds the
two words 1 and 2. -/
theorem handleInterruptData_params_witness :
    parseEvent [20, 0, 0, 0, 4, 0, 3, 64, 5, 0, 0, 0, 1, 0, 0, 0, 2, 0, 0, 0] =
      Except.ok
        (EventContainer.mk 20 0x4003 5 [1, 0, 0, 0, 2, 0, 0, 0]) ∧
    ∃ ev,
      (handleInterruptData
        [20, 0, 0, 0, 4, 0, 3, 64, 5, 0, 0, 0, 1, 0, 0, 0, 2, 0, 0, 0]).2 = [ev] ∧
      ev.code = (EventContainer.mk 20 0x4003 5 [1, 0, 0, 0, 2, 0, 0, 0]).code ∧
      ev.transactionId =
        (EventContainer.mk 20 0x4003 5 [1, 0, 0, 0, 2, 0, 0, 0]).transactionId ∧
      ev.parameters.length =
        min ((EventContainer.mk 20 0x4003 5
          [1, 0, 0, 0, 2, 0, 0, 0]).payload.length / 4) 5 ∧
      (∀ i < ev.parameters.length,
        ev.parameters.getD i 0 =
          readU32le ((EventContainer.mk 20 0x4003 5
            [1, 0, 0, 0, 2, 0, 0, 0]).payload.drop (4 * i))) :=
  ⟨rfl,
    handleInterruptData_params
      [20, 0, 0, 0, 4, 0, 3, 64, 5, 0, 0, 0, 1, 0, 0, 0, 2, 0, 0, 0]
      (EventContainer.mk 20 0x4003 5 [1, 0, 0, 0, 2, 0, 0, 0]) rfl⟩

/-- C8, counterexample. The claim says the pump emits a structured
log record on a parse failure.  On the malformed container `[]` the
parse fails, yet `handleInterruptData` emits no log record at all (its
`catch` block is empty): the list of emitted records is empty, not a
one-record list. -/
theorem handleInterruptData_failure_no_log :
    parseEvent [] = Except.error "Container too short" ∧
      (handleInterruptData []).1 = [] ∧
      (handleInterruptData []).2 = [] :=
  ⟨rfl, rfl, rfl⟩

/-- C8, amended. When parsing of an interrupt EVENT container
fails, the pump swallows the error silently — it emits no log record —
and continues listening: the decode error is never propagated to
registered event handlers, no handler is invoked for the malformed
container, and the pump re-schedules the next poll exactly as before. -/
theorem pollStep_parse_failure (interruptListening : Bool) (data : List Nat)
    (e : String) (h : parseEvent data = Except.error e) :
    pollStep interruptListening data = (([], []), interruptListening) := by
  unfold pollStep handleInterruptData
  rw [h]

/-- Witness for the amended C8 at the malformed container `[]` with the
pump listening. -/
theorem pollStep_parse_failure_witness :
    parseEvent [] = Except.error "Container too short" ∧
      pollStep true [] = (([], []), true) :=
  ⟨rfl, pollStep_parse_failure true [] "Container too short" rfl⟩

/-! ## Canon camera connect sequence and event polling
(`src/camera/canon-camera.ts`, `CanonCamera.connect`,
`CanonCamera.flushInitialEvents`, `CanonCamera.startEventPolling`)

`connect` sets `sessionId = 1`, sends `OpenSession(SessionID = 1)`,
enables remote mode (`CanonSetRemoteMode ENABLE`), enables event mode
(`CanonSetEventMode ENABLE`), flushes the camera's initial property
dump by polling `CanonGetEventData` (at most 20 polls, stopping after 3
consecutive empty responses or a send failure), then starts the
substituted event pump: `startEventPolling(intervalMs = 200)` runs a
`setInterval` whose body sends `CanonGetEventData`.  The PTP operations
the camera sends are modelled as a trace; each `CanonGetEventData`
response is supplied as a list of event records. -/

/-- A PTP operation sent by `CanonCamera`. -/
inductive CanonOp
  | openSession (sessionId : Nat)
  | setRemoteMode (enable : Bool)
  | setEventMode (enable : Bool)
  | getEventData
  | requestDevicePropValue (propertyCode : Nat)
deriving DecidableEq

/-- One event record decoded from a `CanonGetEventData` response. -/
structure CanonEventRecord where
  code : Nat
  parameters : List Nat
deriving DecidableEq

/-- The `CanonValueChanged` event code (`0xC189`). -/
def canonValueChangedCode : Nat := 0xC189

/-- JS `Map.set` on the property cache keyed by property code. -/
def cacheSet (cache : List (Nat × Nat)) (k v : Nat) : List (Nat × Nat) :=
  if cache.any (fun p => p.1 = k) then
    cache.map (fun p => if p.1 = k then (k, v) else p)
  else cache ++ [(k, v)]

/-- Cache update for one event: a `CanonValueChanged` event with at
least two parameters stores `(propertyCode, value)`. -/
def applyValueChanged (cache : List (Nat × Nat)) (ev : CanonEventRecord) :
    List (Nat × Nat) :=
  if ev.code = canonValueChangedCode ∧ 2 ≤ ev.parameters.length then
    cacheSet cache (ev.parameters.getD 0 0) (ev.parameters.getD 1 0)
  else cache

/-- The method `CanonCamera.flushInitialEvents`: up to `fuel` (initially 20) polls
of `CanonGetEventData`; a nonempty response resets the
consecutive-empty counter and updates the property cache, the third
consecutive empty response stops the loop, and an exhausted response
supply models a send failure, which also stops the loop.  Returns the
operations sent and the final property cache. -/
def flushInitialEvents :
    List (List CanonEventRecord) → Nat → Nat → List (Nat × Nat) →
      List CanonOp × List (Nat × Nat)
  | _, 0, _, cache => ([], cache)
  | [], _ + 1, _, cache => ([CanonOp.getEventData], cache)
  | evs :: rest, fuel + 1, emptyCount, cache =>
    if 0 < evs.length then
      let r := flushInitialEvents rest fuel 0 (evs.foldl applyValueChanged cache)
      (CanonOp.getEventData :: r.1, r.2)
    else if 3 ≤ emptyCount + 1 then ([CanonOp.getEventData], cache)
    else
      let r := flushInitialEvents rest fuel (emptyCount + 1) cache
      (CanonOp.getEventData :: r.1, r.2)

/-- The method `CanonCamera.connect` after the transport is open: the ordered
trace of PTP operations it sends. -/
def canonConnectTrace (flushResponses : List (List CanonEventRecord)) :
    List CanonOp :=
  CanonOp.openSession 1 :: CanonOp.setRemoteMode true ::
    CanonOp.setEventMode true ::
    (flushInitialEvents flushResponses 20 0 []).1

/-- The event pump substituted for the interrupt endpoint. -/
structure EventPolling where
  intervalMs : Nat
  tick : CanonOp
deriving DecidableEq

/-- The method `CanonCamera.startEventPolling(intervalMs = 200)`: a `setInterval`
at `intervalMs` whose body sends `CanonGetEventData`. -/
def startEventPolling (intervalMs : Nat := 200) : EventPolling :=
  EventPolling.mk intervalMs CanonOp.getEventData

/-- The pump `connect` starts (`this.startEventPolling()`, default
interval). -/
def canonConnectPolling : EventPolling := startEventPolling

/-- Every operation `flushInitialEvents` sends is `CanonGetEventData`. -/
theorem flushInitialEvents_ops (responses : List (List CanonEventRecord)) :
    ∀ (fuel emptyCount : Nat) (cache : List (Nat × Nat)),
      ∀ op ∈ (flushInitialEvents responses fuel emptyCount cache).1,
        op = CanonOp.getEventData := by
  induction responses with
  | nil =>
    intro fuel emptyCount cache op hop
    cases fuel with
    | zero => simp [flushInitialEvents] at hop
    | succ f =>
      rw [flushInitialEvents] at hop
      simp only [List.mem_singleton] at hop
      exact hop
  | cons evs rest ih =>
    intro fuel emptyCount cache op hop
    cases fuel with
    | zero => simp [flushInitialEvents] at hop
    | succ f =>
      rw [flushInitialEvents] at hop
      split_ifs at hop with h1 h2
      · simp only [List.mem_cons] at hop
        rcases hop with rfl | hop
        · rfl
        · exact ih f 0 _ op hop
      · simp only [List.mem_singleton] at hop
        exact hop
      · simp only [List.mem_cons] at hop
        rcases hop with rfl | hop
        · rfl
        · exact ih f (emptyCount + 1) cache op hop

/-- C9. `CanonCamera.connect` always opens the session with
`SessionID = 1`, then enables remote mode and event mode before
anything else — in particular before any property access: no
`CanonRequestDevicePropValue` is sent during connect — and the
substituted event pump polls `CanonGetEventData` at the fixed default
interval of 200 ms. -/
theorem canonCamera_connect_spec (flushResponses : List (List CanonEventRecord)) :
    (canonConnectTrace flushResponses).take 3 =
      [CanonOp.openSession 1, CanonOp.setRemoteMode true,
        CanonOp.setEventMode true] ∧
    (∀ op ∈ canonConnectTrace flushResponses, ∀ pc,
      op ≠ CanonOp.requestDevicePropValue pc) ∧
    canonConnectPolling.intervalMs = 200 ∧
    canonConnectPolling.tick = CanonOp.getEventData := by
  refine ⟨rfl, ?_, rfl, rfl⟩
  intro op hop pc
  rw [canonConnectTrace] at hop
  simp only [List.mem_cons] at hop
  rcases hop with rfl | rfl | rfl | hop
  · simp
  · simp
  · simp
  · rw [flushInitialEvents_ops flushResponses 20 0 [] op hop]
    simp

/-- Witness for C9 at a one-response flush supply. -/
theorem canonCamera_connect_spec_witness :
    (canonConnectTrace [[]]).take 3 =
      [CanonOp.openSession 1, CanonOp.setRemoteMode true,
        CanonOp.setEventMode true] ∧
    (∀ op ∈ canonConnectTrace [[]], ∀ pc,
      op ≠ CanonOp.requestDevicePropValue pc) ∧
    canonConnectPolling.intervalMs = 200 ∧
    canonConnectPolling.tick = CanonOp.getEventData :=
  canonCamera_connect_spec [[]]

end Darkgrade
